/-
Verification of the orchestration engine and response cache of the
Agentic-AI-Research-Assistant repository.

The development shallowly embeds the relevant Python code:

* `src/agent/agent_workflow.py` — the router node, critic node, retry
  condition and the Agent↔Critic cycle of `ResearchAssistantWorkflow`.
* `src/utils/cache.py` — `CacheEntry` and `ResponseCache` (get / set /
  eviction / key fingerprinting).

Python floats (times, confidence scores) are modelled as rationals `ℚ`;
Python ints as `Int` (or `Nat` where the source value is a count that is
only ever incremented from zero).  External collaborators — the
completion provider, `json.loads` and the `hashlib` digest — are passed
in as explicit function or data parameters, so that every theorem
quantifies over all of their possible behaviours.
-/
import Mathlib

/-! ## Workflow model: `src/agent/agent_workflow.py` -/

/-- Result of `json.loads` on the critic output, restricted to the keys the
code reads (`confidence_score`, `supported`, `reasoning`).  A `none` field
models an absent key, read through `dict.get` with a default. -/
structure CriticJson where
  confidence_score : Option ℚ
  supported : Option Bool
  reasoning : Option String
deriving DecidableEq

/-- The `reflection_stats` dictionary initialised in
`ResearchAssistantWorkflow.__init__`. -/
structure ReflectionStats where
  total_queries : Nat
  triggered_reflections : Nat
  total_retries : Nat
  confidence_scores : List ℚ
deriving DecidableEq

/-- One entry of `current_reflection_logs`, as built in `critic_node`. -/
structure ReflectionLog where
  original_response : String
  confidence_score : ℚ
  is_hallucinating : Bool
  retry_triggered : Bool
  reasoning : String
deriving DecidableEq

/-- The critic-relevant slice of the LangGraph state: `retry_count`,
`is_hallucinating` and `confidence_score`.  `retry_count` is a Python int,
hence `Int`. -/
structure CriticState where
  retry_count : Int
  is_hallucinating : Bool
  confidence_score : ℚ
deriving DecidableEq

/-- Outcome of the critic's `self.llm.invoke` call: either the returned
message content, or an exception (caught by the outer `except` of
`critic_node`). -/
inductive CriticCall where
  | success (content : String)
  | failure
deriving DecidableEq

/-- What one invocation of `critic_node` produces: the updated stats, the
updated reflection logs, and the state fields of its return dict.  On the
early-return paths the dict omits `retry_count`, so the state keeps the old
value; the model writes the old value back explicitly. -/
structure CriticOut where
  stats : ReflectionStats
  logs : List ReflectionLog
  state : CriticState
deriving DecidableEq

/-- Python `pat in s` for a non-empty pattern, expressed through
`String.splitOn`: the pattern occurs iff splitting produces at least two
parts. -/
def strContains (s pat : String) : Bool := 2 ≤ (s.splitOn pat).length

/-- The fenced-block extraction applied to the critic response before
`json.loads` (`critic_node`, lines 212–218): if the content contains
"```json", take what follows the first such fence up to the next "```" and
strip it; otherwise, if it contains "```", do the same with the bare fence;
otherwise use the content unchanged.  Python `split(sep)[1]` is total here
because the separator was just found; `getD` encodes the defined index
accesses. -/
def extract_content (content : String) : String :=
  if strContains content "```json" then
    ((((content.splitOn "```json").getD 1 "").splitOn "```").getD 0 "").trim
  else if strContains content "```" then
    ((((content.splitOn "```").getD 1 "").splitOn "```").getD 0 "").trim
  else content

/-- The fallback dict assigned when `json.loads` raises
(`critic_node`, lines 220–226). -/
def parseFallback : CriticJson :=
  ⟨some 1, some true, some "Failed to parse critic response, assuming OK."⟩

/-- `ResearchAssistantWorkflow.critic_node`, parameterised by `loads`
(the external `json.loads`, returning `none` when it would raise) and by the
inputs the node reads from the state: the current `retry_count`, the last
response content, the `ToolMessage` contents (`contexts`) and the outcome of
the critic LLM call. -/
def critic_node (loads : String → Option CriticJson) (stats : ReflectionStats)
    (logs : List ReflectionLog) (retry_count : Int) (last_response : String)
    (contexts : List String) (call : CriticCall) : CriticOut :=
  if contexts.isEmpty then
    -- `if not contexts: return {"is_hallucinating": False, "confidence_score": 1.0}`
    ⟨stats, logs, ⟨retry_count, false, 1⟩⟩
  else
    match call with
    | .failure =>
      -- outer `except`: `return {"is_hallucinating": False, "confidence_score": 1.0}`
      ⟨stats, logs, ⟨retry_count, false, 1⟩⟩
    | .success content =>
      let reflection_result := (loads (extract_content content)).getD parseFallback
      let confidence_score := reflection_result.confidence_score.getD 1
      -- `is_hallucinating = confidence_score < 0.7`; the literal 0.7 is the
      -- rational 7/10, written `mkRat` to keep it kernel-reducible.
      let is_hallucinating : Bool := confidence_score < mkRat 7 10
      let stats' : ReflectionStats :=
        { stats with
          total_queries := stats.total_queries + 1
          confidence_scores := stats.confidence_scores ++ [confidence_score]
          triggered_reflections :=
            stats.triggered_reflections + (if is_hallucinating then 1 else 0) }
      let log_entry : ReflectionLog :=
        ⟨last_response.take 200 ++ "...", confidence_score, is_hallucinating,
         is_hallucinating && decide (retry_count < 3),
         reflection_result.reasoning.getD ""⟩
      ⟨stats', logs ++ [log_entry],
       ⟨if is_hallucinating then retry_count + 1 else retry_count,
        is_hallucinating, confidence_score⟩⟩

/-- `ResearchAssistantWorkflow.reflection_condition` as a Boolean decision:
`true` means route back to `agent`, `false` means `END`. -/
def reflection_condition (st : CriticState) : Bool :=
  st.is_hallucinating && decide (st.retry_count ≤ 3)

/-- Outcome of the router's `self.llm.invoke` call. -/
inductive RouterCall where
  | success (content : String)
  | failure
deriving DecidableEq

/-- The keys of `self.tool_groups` built in `__init__`. -/
def tool_group_names : List String := ["none", "memory", "search", "all"]

/-- Python `str.lower()`, character by character. -/
def pyLower (s : String) : String := ⟨s.data.map Char.toLower⟩

/-- Python `str.strip()`: drop leading and trailing whitespace. -/
def pyStrip (s : String) : String :=
  ⟨((s.data.dropWhile Char.isWhitespace).reverse.dropWhile Char.isWhitespace).reverse⟩

/-- `ResearchAssistantWorkflow.router_node`, reduced to the intent it
returns: normalise the classifier label with `strip().lower()`; replace a
label that is not a `tool_groups` key by "search"; on any exception return
"search". -/
def router_node (call : RouterCall) : String :=
  match call with
  | .failure => "search"
  | .success content =>
    let intent := pyLower (pyStrip content)
    if intent ∈ tool_group_names then intent else "search"

/-! ### The Agent↔Critic cycle

One iteration of the cycle is: the agent phase (the `agent` node together
with any `agent ⇄ tools` round trips, which never touch `retry_count`,
`is_hallucinating` or `confidence_score`), then one `critic_node`
invocation, then `reflection_condition`.  What the agent phase feeds the
critic — the last response, the accumulated tool contexts and the critic
LLM outcome — is abstracted as an oracle indexed by the iteration number. -/

/-- The critic-relevant products of the `i`-th agent phase. -/
structure CycleInput where
  last_response : String
  contexts : List String
  call : CriticCall

/-- Result of a terminated run of the cycle.  `agent_invocations` counts
entries into the agent phase; `retry_trace` records `retry_count` after
every critic invocation, in order. -/
structure RunResult where
  stats : ReflectionStats
  logs : List ReflectionLog
  final : CriticState
  agent_invocations : Nat
  retry_trace : List Int
deriving DecidableEq

/-- The `critic → agent` retry loop of the compiled graph (`build_graph`):
run agent phase `i`, run the critic on the oracle's `i`-th input, append the
observed `retry_count` to the trace, and loop while `reflection_condition`
signals retry (which also increments the `total_retries` stat, line 269).
`fuel` bounds the recursion; `none` means the fuel ran out before the cycle
terminated. -/
def runCycle (loads : String → Option CriticJson) (oracle : Nat → CycleInput) :
    Nat → ReflectionStats → List ReflectionLog → CriticState → Nat → Nat →
    List Int → Option RunResult
  | 0, _, _, _, _, _, _ => none
  | fuel + 1, stats, logs, st, i, agents, trace =>
    let inp := oracle i
    let out := critic_node loads stats logs st.retry_count inp.last_response
      inp.contexts inp.call
    let trace' := trace ++ [out.state.retry_count]
    if reflection_condition out.state then
      runCycle loads oracle fuel
        { out.stats with total_retries := out.stats.total_retries + 1 }
        out.logs out.state (i + 1) (agents + 1) trace'
    else
      some ⟨out.stats, out.logs, out.state, agents + 1, trace'⟩

/-- The initial state set up by `run_research`: `retry_count = 0`; the
`is_hallucinating` / `confidence_score` keys are absent and read through
`state.get` defaults before the critic first writes them. -/
def initState : CriticState := ⟨0, false, 1⟩

/-- Fresh stats, as initialised in `__init__`. -/
def initStats : ReflectionStats := ⟨0, 0, 0, []⟩

/-! ## Lemmas about the critic node and the cycle -/

/-- Case analysis on `critic_node`: either an early-return path (empty
contexts or caught exception) yielding `(retry_count, false, 1.0)`, or the
scoring path yielding the parsed-or-defaulted confidence `q`, the
hallucination flag `q < 0.7`, and a conditional retry increment. -/
theorem critic_node_state_cases (loads : String → Option CriticJson)
    (stats : ReflectionStats) (logs : List ReflectionLog) (retry_count : Int)
    (last_response : String) (contexts : List String) (call : CriticCall) :
    (critic_node loads stats logs retry_count last_response contexts call).state
      = ⟨retry_count, false, 1⟩ ∨
    ∃ q : ℚ,
      (critic_node loads stats logs retry_count last_response contexts call).state
        = ⟨if decide (q < mkRat 7 10) = true then retry_count + 1 else retry_count,
           decide (q < mkRat 7 10), q⟩ := by
  unfold critic_node
  split
  · exact Or.inl rfl
  · cases call with
    | failure => exact Or.inl rfl
    | success content => exact Or.inr ⟨_, rfl⟩

/-- If the critic flags a hallucination, it also incremented `retry_count`. -/
theorem critic_node_retry_of_hall (loads : String → Option CriticJson)
    (stats : ReflectionStats) (logs : List ReflectionLog) (retry_count : Int)
    (last_response : String) (contexts : List String) (call : CriticCall)
    (h : (critic_node loads stats logs retry_count last_response contexts
      call).state.is_hallucinating = true) :
    (critic_node loads stats logs retry_count last_response contexts
      call).state.retry_count = retry_count + 1 := by
  rcases critic_node_state_cases loads stats logs retry_count last_response
    contexts call with h1 | ⟨q, h1⟩
  · rw [h1] at h; simp at h
  · rw [h1] at h ⊢
    simp only at h
    simp [h]

/-- The critic either keeps `retry_count` or increments it by one. -/
theorem critic_node_retry_cases (loads : String → Option CriticJson)
    (stats : ReflectionStats) (logs : List ReflectionLog) (retry_count : Int)
    (last_response : String) (contexts : List String) (call : CriticCall) :
    (critic_node loads stats logs retry_count last_response contexts
      call).state.retry_count = retry_count ∨
    (critic_node loads stats logs retry_count last_response contexts
      call).state.retry_count = retry_count + 1 := by
  rcases critic_node_state_cases loads stats logs retry_count last_response
    contexts call with h1 | ⟨q, h1⟩
  · exact Or.inl (by rw [h1])
  · rw [h1]
    by_cases hq : decide (q < mkRat 7 10) = true
    · exact Or.inr (by simp [hq])
    · exact Or.inl (by simp [hq])

/-- `reflection_condition` unfolded to a proposition. -/
theorem reflection_condition_iff (st : CriticState) :
    reflection_condition st = true ↔
      st.is_hallucinating = true ∧ st.retry_count ≤ 3 := by
  simp [reflection_condition]

/-- Invariant of the Agent↔Critic cycle: entering an iteration with
`0 ≤ retry_count ≤ 3`, every terminated run keeps every traced
`retry_count` in `[0, 4]` (beyond what the incoming trace already holds),
ends with `retry_count ∈ [0, 4]`, and performs at most
`4 - retry_count` further agent invocations. -/
theorem runCycle_invariant (loads : String → Option CriticJson)
    (oracle : Nat → CycleInput) :
    ∀ (fuel : Nat) (stats : ReflectionStats) (logs : List ReflectionLog)
      (st : CriticState) (i agents : Nat) (trace : List Int) (r : RunResult),
      0 ≤ st.retry_count → st.retry_count ≤ 3 →
      runCycle loads oracle fuel stats logs st i agents trace = some r →
      (∀ x ∈ r.retry_trace, x ∈ trace ∨ (0 ≤ x ∧ x ≤ 4)) ∧
      (0 ≤ r.final.retry_count ∧ r.final.retry_count ≤ 4) ∧
      r.agent_invocations + st.retry_count.toNat ≤ agents + 4 := by
  intro fuel
  induction fuel with
  | zero =>
    intro stats logs st i agents trace r h0 h3 hrun
    simp [runCycle] at hrun
  | succ n ih =>
    intro stats logs st i agents trace r h0 h3 hrun
    simp only [runCycle] at hrun
    split at hrun
    · next hc =>
      have hc' := (reflection_condition_iff _).mp hc
      have hinc := critic_node_retry_of_hall loads stats logs st.retry_count
        (oracle i).last_response (oracle i).contexts (oracle i).call hc'.1
      obtain ⟨htr, hfin, hag⟩ :=
        ih _ _ _ (i + 1) (agents + 1) _ r (by omega) hc'.2 hrun
      refine ⟨?_, hfin, by omega⟩
      intro x hx
      rcases htr x hx with hx' | hx'
      · rcases List.mem_append.mp hx' with h | h
        · exact Or.inl h
        · simp at h
          omega
      · exact Or.inr hx'
    · next hc =>
      have := Option.some.inj hrun
      subst this
      rcases critic_node_retry_cases loads stats logs st.retry_count
        (oracle i).last_response (oracle i).contexts (oracle i).call with
        h | h
      all_goals
        refine ⟨?_, ?_, ?_⟩ <;>
          simp only [List.mem_append, List.mem_singleton]
      · rintro x (hx | rfl)
        · exact Or.inl hx
        · exact Or.inr (by omega)
      · omega
      · omega
      · rintro x (hx | rfl)
        · exact Or.inl hx
        · exact Or.inr (by omega)
      · omega
      · omega

/-- With `0 ≤ retry_count ≤ 3` on entry, fuel `4 - retry_count` suffices:
the cycle always terminates. -/
theorem runCycle_isSome (loads : String → Option CriticJson)
    (oracle : Nat → CycleInput) :
    ∀ (fuel : Nat) (stats : ReflectionStats) (logs : List ReflectionLog)
      (st : CriticState) (i agents : Nat) (trace : List Int),
      0 ≤ st.retry_count → st.retry_count ≤ 3 →
      4 ≤ fuel + st.retry_count.toNat →
      (runCycle loads oracle fuel stats logs st i agents trace).isSome
        = true := by
  intro fuel
  induction fuel with
  | zero =>
    intro stats logs st i agents trace h0 h3 hf
    omega
  | succ n ih =>
    intro stats logs st i agents trace h0 h3 hf
    simp only [runCycle]
    split
    · next hc =>
      have hc' := (reflection_condition_iff _).mp hc
      have hinc := critic_node_retry_of_hall loads stats logs st.retry_count
        (oracle i).last_response (oracle i).contexts (oracle i).call hc'.1
      exact ih _ _ _ (i + 1) (agents + 1) _ (by omega) hc'.2 (by omega)
    · simp

/-! ## Claims C1–C6 -/

/-- C1 (amended): for every run of the Agent↔Critic cycle, `retry_count`
starts at 0, never goes below 0, and never exceeds `max_retries + 1 = 4` at
any point; in particular the final state satisfies `retry_count ≤ 4`.
(The original bound 3 fails: the critic increments `retry_count` before
`reflection_condition` compares it with 3, so a run whose critic always
flags hallucination ends with `retry_count = 4`.) -/
theorem C1_amended_retry_bounds (loads : String → Option CriticJson)
    (oracle : Nat → CycleInput) (fuel : Nat) (stats : ReflectionStats)
    (logs : List ReflectionLog) (r : RunResult)
    (h : runCycle loads oracle fuel stats logs initState 0 0 [] = some r) :
    initState.retry_count = 0 ∧
    (∀ x ∈ r.retry_trace, 0 ≤ x ∧ x ≤ 4) ∧
    0 ≤ r.final.retry_count ∧ r.final.retry_count ≤ 4 := by
  obtain ⟨htr, hfin, -⟩ := runCycle_invariant loads oracle fuel stats logs
    initState 0 0 [] r (by simp [initState]) (by simp [initState]) h
  exact ⟨rfl, fun x hx => (htr x hx).resolve_left (by simp), hfin.1, hfin.2⟩

/-- C1 witness: a concrete terminating run (critic call fails, no retry). -/
theorem C1_witness :
    initState.retry_count = 0 ∧
    (∀ x ∈ (⟨initStats, [], ⟨0, false, 1⟩, 1, [0]⟩ : RunResult).retry_trace,
      0 ≤ x ∧ x ≤ 4) ∧
    0 ≤ (⟨initStats, [], ⟨0, false, 1⟩, 1, [0]⟩ : RunResult).final.retry_count ∧
    (⟨initStats, [], ⟨0, false, 1⟩, 1, [0]⟩ : RunResult).final.retry_count ≤ 4 :=
  C1_amended_retry_bounds (fun _ => none) (fun _ => ⟨"", [], CriticCall.failure⟩)
    1 initStats [] _ (by decide)

/-- C1 counterexample to the claim as stated: with a critic that always
parses to confidence 0, the run terminates with final `retry_count = 4`,
violating `retry_count ≤ 3`. -/
theorem C1_counterexample :
    (runCycle (fun _ => some ⟨some 0, none, none⟩)
        (fun _ => ⟨"resp", ["ctx"], CriticCall.success "out"⟩) 5
        initStats [] initState 0 0 []).map
      (fun r => decide (r.final.retry_count ≤ 3)) = some false ∧
    (runCycle (fun _ => some ⟨some 0, none, none⟩)
        (fun _ => ⟨"resp", ["ctx"], CriticCall.success "out"⟩) 5
        initStats [] initState 0 0 []).map
      (fun r => r.final.retry_count) = some 4 := by
  exact ⟨by decide, by decide⟩

/-- C2: the Retry Controller decision (`reflection_condition`: retry iff
`is_hallucinating` and `retry_count ≤ 3`) terminates every Agent↔Critic
cycle — fuel 4 always suffices — and every terminated run performs at most
`max_retries + 1 = 4` agent invocations. -/
theorem C2_cycle_agent_bound (loads : String → Option CriticJson)
    (oracle : Nat → CycleInput) (stats : ReflectionStats)
    (logs : List ReflectionLog) (fuel : Nat) (r : RunResult)
    (h : runCycle loads oracle fuel stats logs initState 0 0 [] = some r) :
    (runCycle loads oracle 4 stats logs initState 0 0 []).isSome = true ∧
    r.agent_invocations ≤ 4 := by
  constructor
  · exact runCycle_isSome loads oracle 4 stats logs initState 0 0 []
      (by simp [initState]) (by simp [initState]) (by simp [initState])
  · obtain ⟨-, -, hag⟩ := runCycle_invariant loads oracle fuel stats logs
      initState 0 0 [] r (by simp [initState]) (by simp [initState]) h
    simpa [initState] using hag

/-- C2 witness: a concrete run terminates within fuel 4 with at most 4
agent invocations. -/
theorem C2_witness :
    (runCycle (fun _ => none) (fun _ => ⟨"", [], CriticCall.failure⟩) 4
      initStats [] initState 0 0 []).isSome = true ∧
    (⟨initStats, [], ⟨0, false, 1⟩, 1, [0]⟩ : RunResult).agent_invocations ≤ 4 :=
  C2_cycle_agent_bound (fun _ => none) (fun _ => ⟨"", [], CriticCall.failure⟩)
    initStats [] 1 _ (by decide)

/-- C3 (amended): the critic updates the ReflectionStats counters, the
confidence-score list (the source of the histogram) and appends exactly one
ReflectionLog entry precisely on the invocations that reach the scoring
path — contexts nonempty and critic call succeeded (including parse
failures); the empty-contexts short-circuit and the internal-error path
leave stats and logs unchanged. -/
theorem C3_amended_stats_logs (loads : String → Option CriticJson)
    (stats : ReflectionStats) (logs : List ReflectionLog) (retry_count : Int)
    (last_response : String) (contexts : List String) (call : CriticCall) :
    (contexts ≠ [] → call ≠ CriticCall.failure →
      (critic_node loads stats logs retry_count last_response contexts
        call).logs.length = logs.length + 1 ∧
      (critic_node loads stats logs retry_count last_response contexts
        call).stats.total_queries = stats.total_queries + 1 ∧
      (critic_node loads stats logs retry_count last_response contexts
        call).stats.confidence_scores.length
        = stats.confidence_scores.length + 1) ∧
    ((contexts = [] ∨ call = CriticCall.failure) →
      (critic_node loads stats logs retry_count last_response contexts
        call).stats = stats ∧
      (critic_node loads stats logs retry_count last_response contexts
        call).logs = logs) := by
  constructor
  · intro hc hcall
    unfold critic_node
    rw [if_neg (by simpa using hc)]
    cases call with
    | failure => exact absurd rfl hcall
    | success content => simp
  · rintro (rfl | rfl)
    · unfold critic_node
      simp
    · unfold critic_node
      by_cases hc : contexts.isEmpty <;> simp [hc]

/-- C3 witness: a scoring-path invocation appends one entry and bumps the
counters; an empty-contexts invocation changes nothing. -/
theorem C3_witness :
    ((critic_node (fun _ => none) initStats [] 0 "resp" ["ctx"]
        (CriticCall.success "out")).logs.length
        = ([] : List ReflectionLog).length + 1 ∧
      (critic_node (fun _ => none) initStats [] 0 "resp" ["ctx"]
        (CriticCall.success "out")).stats.total_queries
        = initStats.total_queries + 1 ∧
      (critic_node (fun _ => none) initStats [] 0 "resp" ["ctx"]
        (CriticCall.success "out")).stats.confidence_scores.length
        = initStats.confidence_scores.length + 1) ∧
    ((critic_node (fun _ => none) initStats [] 0 "resp" []
        (CriticCall.success "out")).stats = initStats ∧
      (critic_node (fun _ => none) initStats [] 0 "resp" []
        (CriticCall.success "out")).logs = []) :=
  ⟨(C3_amended_stats_logs (fun _ => none) initStats [] 0 "resp" ["ctx"]
      (CriticCall.success "out")).1 (by decide) (by decide),
   (C3_amended_stats_logs (fun _ => none) initStats [] 0 "resp" []
      (CriticCall.success "out")).2 (Or.inl rfl)⟩

/-- C3 counterexample to the claim as stated: an empty-contexts critic
invocation updates no counter and appends no ReflectionLog entry. -/
theorem C3_counterexample :
    (critic_node (fun _ => none) initStats [] 0 "resp" []
      (CriticCall.success "out")).stats = initStats ∧
    (critic_node (fun _ => none) initStats [] 0 "resp" []
      (CriticCall.success "out")).logs = [] ∧
    ¬ ((critic_node (fun _ => none) initStats [] 0 "resp" []
      (CriticCall.success "out")).logs.length
      = ([] : List ReflectionLog).length + 1) :=
  ⟨by decide, by decide, by decide⟩

/-- C4 (amended): the recorded `confidence_score` lies in `[0, 1]` on every
fallback path (empty contexts, provider error, parse failure, missing key),
and on a successful parse it equals the parsed value — so it lies in
`[0, 1]` provided the parsed `confidence_score` does.  (The original
unconditional claim fails: the code never clamps the parsed value.) -/
theorem C4_amended_confidence_bounds (loads : String → Option CriticJson)
    (stats : ReflectionStats) (logs : List ReflectionLog) (retry_count : Int)
    (last_response : String) (contexts : List String) (call : CriticCall)
    (h : ∀ content j, call = CriticCall.success content →
      loads (extract_content content) = some j →
      ∀ q : ℚ, j.confidence_score = some q → 0 ≤ q ∧ q ≤ 1) :
    0 ≤ (critic_node loads stats logs retry_count last_response contexts
      call).state.confidence_score ∧
    (critic_node loads stats logs retry_count last_response contexts
      call).state.confidence_score ≤ 1 := by
  unfold critic_node
  split
  · exact ⟨by norm_num, by norm_num⟩
  · cases call with
    | failure => exact ⟨by norm_num, by norm_num⟩
    | success content =>
      cases hload : loads (extract_content content) with
      | none => simp [hload, parseFallback]
      | some j =>
        cases hcs : j.confidence_score with
        | none => simp [hload, hcs]
        | some q =>
          have hq := h content j rfl hload q hcs
          simp [hload, hcs, hq.1, hq.2]

/-- C4 witness: on a parse-failure invocation the hypothesis is vacuous and
the recorded score is within bounds. -/
theorem C4_witness :
    0 ≤ (critic_node (fun _ => none) initStats [] 0 "resp" ["ctx"]
      (CriticCall.success "out")).state.confidence_score ∧
    (critic_node (fun _ => none) initStats [] 0 "resp" ["ctx"]
      (CriticCall.success "out")).state.confidence_score ≤ 1 :=
  C4_amended_confidence_bounds (fun _ => none) initStats [] 0 "resp" ["ctx"]
    (CriticCall.success "out") (fun _ _ _ hl => absurd hl (by simp))

/-- C4 counterexample to the claim as stated: a critic JSON with
`confidence_score = 2` is recorded unclamped, violating the upper bound. -/
theorem C4_counterexample :
    ¬ ((critic_node (fun _ => some ⟨some 2, none, none⟩) initStats [] 0 "resp"
      ["ctx"] (CriticCall.success "out")).state.confidence_score ≤ 1) := by
  decide

/-- C5: the critic fails open — whenever the accumulated contexts list is
empty, or the completion output (after tolerating an optional fenced block,
`extract_content`) does not parse as JSON, the resulting state has
`confidence_score = 1.0` and `is_hallucinating = false`. -/
theorem C5_fail_open (loads : String → Option CriticJson)
    (stats : ReflectionStats) (logs : List ReflectionLog) (retry_count : Int)
    (last_response : String) (contexts : List String) (call : CriticCall) :
    (contexts = [] →
      (critic_node loads stats logs retry_count last_response contexts
        call).state.confidence_score = 1 ∧
      (critic_node loads stats logs retry_count last_response contexts
        call).state.is_hallucinating = false) ∧
    (∀ content, call = CriticCall.success content →
      loads (extract_content content) = none →
      (critic_node loads stats logs retry_count last_response contexts
        call).state.confidence_score = 1 ∧
      (critic_node loads stats logs retry_count last_response contexts
        call).state.is_hallucinating = false) := by
  constructor
  · rintro rfl
    unfold critic_node
    simp
  · rintro content rfl hload
    unfold critic_node
    split
    · simp
    · simp [hload, parseFallback,
        show decide ((1:ℚ) < mkRat 7 10) = false from by decide]

/-- C5 witness: empty contexts, and a fenced but unparseable critic
output, both fail open. -/
theorem C5_witness :
    ((critic_node (fun _ => none) initStats [] 0 "resp" []
        CriticCall.failure).state.confidence_score = 1 ∧
      (critic_node (fun _ => none) initStats [] 0 "resp" []
        CriticCall.failure).state.is_hallucinating = false) ∧
    ((critic_node (fun _ => none) initStats [] 0 "resp" ["ctx"]
        (CriticCall.success "```json not-json```")).state.confidence_score = 1 ∧
      (critic_node (fun _ => none) initStats [] 0 "resp" ["ctx"]
        (CriticCall.success "```json not-json```")).state.is_hallucinating
        = false) :=
  ⟨(C5_fail_open (fun _ => none) initStats [] 0 "resp" []
      CriticCall.failure).1 rfl,
   (C5_fail_open (fun _ => none) initStats [] 0 "resp" ["ctx"]
      (CriticCall.success "```json not-json```")).2 _ rfl rfl⟩

/-- C6: the router normalises the classifier label with `strip().lower()`;
a normalised label among the four known categories is kept, anything else —
including a failed classifier call — deterministically becomes "search";
the result is always one of the four categories (the router never raises). -/
theorem C6_router_fallback (call : RouterCall) :
    router_node RouterCall.failure = "search" ∧
    (∀ content, pyLower (pyStrip content) ∈ tool_group_names →
      router_node (RouterCall.success content) = pyLower (pyStrip content)) ∧
    (∀ content, pyLower (pyStrip content) ∉ tool_group_names →
      router_node (RouterCall.success content) = "search") ∧
    router_node call ∈ tool_group_names := by
  refine ⟨rfl, fun content h => by simp [router_node, h],
    fun content h => by simp [router_node, h], ?_⟩
  cases call with
  | failure => decide
  | success content =>
    simp only [router_node]
    split
    · next h => exact h
    · decide

/-- C6 witness: a known label survives normalisation; an unknown label and
a failed call fall back to "search". -/
theorem C6_witness :
    router_node (RouterCall.success "  ALL ") = pyLower (pyStrip "  ALL ") ∧
    router_node (RouterCall.success "banana") = "search" ∧
    router_node RouterCall.failure = "search" ∧
    router_node (RouterCall.success "banana") ∈ tool_group_names :=
  ⟨(C6_router_fallback RouterCall.failure).2.1 "  ALL " (by decide),
   (C6_router_fallback RouterCall.failure).2.2.1 "banana" (by decide),
   (C6_router_fallback RouterCall.failure).1,
   (C6_router_fallback (RouterCall.success "banana")).2.2.2⟩

/-! ## Cache model: `src/utils/cache.py`

The Python dict `self._cache` is modelled as an insertion-ordered
association list with string keys; well-formedness (`ResponseCache.WF`)
states that keys are unique, which every dict satisfies and every
operation preserves.  `time.time()` values are rationals. -/

/-- `CacheEntry`: a cached value with creation time, TTL (seconds, a
Python int) and a per-entry hit counter. -/
structure CacheEntry (α : Type) where
  value : α
  created_at : ℚ
  ttl : Int
  hits : Nat
deriving DecidableEq

/-- `CacheEntry.is_expired`: `time.time() - self.created_at > self.ttl`,
with the current time passed explicitly. -/
def CacheEntry.is_expired (e : CacheEntry α) (now : ℚ) : Bool :=
  decide (now - e.created_at > (e.ttl : ℚ))

/-- Dict lookup `self._cache[key]` / `key in self._cache`. -/
def alistLookup (k : String) : List (String × β) → Option β
  | [] => none
  | (k', v) :: t => if k' = k then some v else alistLookup k t

/-- Dict assignment `self._cache[key] = v`: replace the binding in place if
the key is present, otherwise append it. -/
def alistInsert (k : String) (v : β) : List (String × β) → List (String × β)
  | [] => [(k, v)]
  | (k', v') :: t =>
    if k' = k then (k, v) :: t else (k', v') :: alistInsert k v t

/-- Dict deletion `del self._cache[key]`. -/
def alistErase (k : String) : List (String × β) → List (String × β)
  | [] => []
  | (k', v') :: t => if k' = k then t else (k', v') :: alistErase k t

/-- The deletion loop of `_evict_oldest`:
`for key in keys: del self._cache[key]`. -/
def deleteKeys (ks : List String) (l : List (String × β)) :
    List (String × β) :=
  ks.foldl (fun acc k => alistErase k acc) l

/-- `ResponseCache`: the entry dict, `_max_size`, `_default_ttl` and the
`_stats` hit/miss counters. -/
structure ResponseCache (α : Type) where
  cache : List (String × CacheEntry α)
  max_size : Nat
  default_ttl : Int
  hits : Nat
  misses : Nat
deriving DecidableEq

/-- Dict keys are unique. -/
def ResponseCache.WF (c : ResponseCache α) : Prop :=
  (c.cache.map Prod.fst).Nodup

/-- `ResponseCache.get`: on a present, unexpired key count a hit (store
counter and the entry's own counter) and return the value; on a present,
expired key delete the entry and count a miss; on an absent key count a
miss.  `now` is the `time.time()` of the call. -/
def ResponseCache.get (c : ResponseCache α) (now : ℚ) (key : String) :
    Option α × ResponseCache α :=
  match alistLookup key c.cache with
  | some entry =>
    if entry.is_expired now then
      (none, { c with cache := alistErase key c.cache,
                      misses := c.misses + 1 })
    else
      (some entry.value,
       { c with cache := alistInsert key { entry with hits := entry.hits + 1 }
                  c.cache,
                hits := c.hits + 1 })
  | none => (none, { c with misses := c.misses + 1 })

/-- Python `ttl or self._default_ttl` for `ttl: Optional[int]`: `None` and
`0` are falsy (any other int, including negatives, is truthy). -/
def ttlOrDefault (ttl : Option Int) (d : Int) : Int :=
  match ttl with
  | none => d
  | some t => if t = 0 then d else t

/-- `ResponseCache._evict_oldest`: if the dict is non-empty, sort its keys
by `created_at` ascending (Python's stable `sorted`, modelled by a stable
insertion sort) and delete the oldest `max 1 (size / 10)` of them. -/
def ResponseCache.evict_oldest (c : ResponseCache α) : ResponseCache α :=
  if c.cache.isEmpty then c
  else
    let sorted_keys :=
      (List.insertionSort (fun a b => a.2.created_at ≤ b.2.created_at)
        c.cache).map Prod.fst
    let num_to_remove := max 1 (sorted_keys.length / 10)
    { c with cache := deleteKeys (sorted_keys.take num_to_remove) c.cache }

/-- `ResponseCache.set`: evict first when `len(self._cache) >= max_size`,
then store the value under `key` with TTL `ttl or default_ttl` and a fresh
hit count, stamped with the current time `now`. -/
def ResponseCache.set (c : ResponseCache α) (key : String) (value : α)
    (ttl : Option Int) (now : ℚ) : ResponseCache α :=
  let c' := if c.max_size ≤ c.cache.length then c.evict_oldest else c
  let entry : CacheEntry α := ⟨value, now, ttlOrDefault ttl c'.default_ttl, 0⟩
  { c' with cache := alistInsert key entry c'.cache }

/-! ### Association-list lemmas -/

theorem alistLookup_insert (k : String) (v : β) (l : List (String × β)) :
    alistLookup k (alistInsert k v l) = some v := by
  induction l with
  | nil => simp [alistInsert, alistLookup]
  | cons h t ih =>
    by_cases hk : h.1 = k
    · simp [alistInsert, alistLookup, hk]
    · simp [alistInsert, alistLookup, hk, ih]

theorem length_alistInsert_le (k : String) (v : β) (l : List (String × β)) :
    (alistInsert k v l).length ≤ l.length + 1 := by
  induction l with
  | nil => simp [alistInsert]
  | cons h t ih =>
    by_cases hk : h.1 = k
    · simp [alistInsert, hk]
    · simp only [alistInsert, hk, if_false, List.length_cons]
      omega

theorem length_alistErase_le (k : String) (l : List (String × β)) :
    (alistErase k l).length ≤ l.length := by
  induction l with
  | nil => simp [alistErase]
  | cons h t ih =>
    by_cases hk : h.1 = k
    · simp [alistErase, hk]
    · simp only [alistErase, hk, if_false, List.length_cons]
      omega

theorem length_alistErase_lt (k : String) (l : List (String × β))
    (h : k ∈ l.map Prod.fst) : (alistErase k l).length < l.length := by
  induction l with
  | nil => simp at h
  | cons hd t ih =>
    by_cases hk : hd.1 = k
    · simp [alistErase, hk]
    · have ht : k ∈ t.map Prod.fst := by
        rcases List.mem_map.mp h with ⟨p, hp, hpk⟩
        rcases List.mem_cons.mp hp with rfl | hp'
        · exact absurd hpk hk
        · exact List.mem_map.mpr ⟨p, hp', hpk⟩
      simp only [alistErase, hk, if_false, List.length_cons]
      exact Nat.succ_lt_succ (ih ht)

theorem length_deleteKeys_le (ks : List String) (l : List (String × β)) :
    (deleteKeys ks l).length ≤ l.length := by
  induction ks generalizing l with
  | nil => simp [deleteKeys]
  | cons k ks ih =>
    calc (deleteKeys (k :: ks) l).length
        = (deleteKeys ks (alistErase k l)).length := rfl
      _ ≤ (alistErase k l).length := ih _
      _ ≤ l.length := length_alistErase_le k l

theorem map_fst_alistErase_sublist (k : String) (l : List (String × β)) :
    List.Sublist ((alistErase k l).map Prod.fst) (l.map Prod.fst) := by
  induction l with
  | nil => simp [alistErase]
  | cons h t ih =>
    by_cases hk : h.1 = k
    · simp only [alistErase, hk, if_true, List.map_cons]
      exact List.sublist_cons_self _ _
    · simp only [alistErase, hk, if_false, List.map_cons]
      exact ih.cons₂ h.1

theorem nodup_alistErase (k : String) (l : List (String × β))
    (h : (l.map Prod.fst).Nodup) : ((alistErase k l).map Prod.fst).Nodup :=
  h.sublist (map_fst_alistErase_sublist k l)

theorem nodup_deleteKeys (ks : List String) (l : List (String × β))
    (h : (l.map Prod.fst).Nodup) : ((deleteKeys ks l).map Prod.fst).Nodup := by
  induction ks generalizing l with
  | nil => exact h
  | cons k ks ih => exact ih _ (nodup_alistErase k l h)

theorem map_fst_alistInsert (k : String) (v : β) (l : List (String × β)) :
    (alistInsert k v l).map Prod.fst =
      if k ∈ l.map Prod.fst then l.map Prod.fst
      else l.map Prod.fst ++ [k] := by
  induction l with
  | nil => simp [alistInsert]
  | cons h t ih =>
    by_cases hk : h.1 = k
    · simp [alistInsert, hk]
    · by_cases hm : k ∈ t.map Prod.fst
      · simp only [alistInsert, hk, if_false, List.map_cons, ih, hm, if_true]
        rw [if_pos (List.mem_cons_of_mem _ hm)]
      · simp only [alistInsert, hk, if_false, List.map_cons, ih, hm, if_false,
          List.mem_cons, false_or]
        rw [if_neg (by simp [Ne.symm hk]), List.cons_append]

theorem nodup_alistInsert (k : String) (v : β) (l : List (String × β))
    (h : (l.map Prod.fst).Nodup) : ((alistInsert k v l).map Prod.fst).Nodup := by
  rw [map_fst_alistInsert]
  by_cases hm : k ∈ l.map Prod.fst
  · simpa [hm] using h
  · simp only [hm, if_false]
    simpa [List.nodup_append, hm] using h

theorem alistLookup_eq_none_of_not_mem (k : String) (l : List (String × β))
    (h : k ∉ l.map Prod.fst) : alistLookup k l = none := by
  induction l with
  | nil => rfl
  | cons hd t ih =>
    have h1 : hd.1 ≠ k := by
      intro hk
      exact h (by simp [hk])
    have h2 : k ∉ t.map Prod.fst := fun hm => h (by simp [hm])
    simp [alistLookup, h1, ih h2]

theorem alistLookup_alistErase_self (k : String) (l : List (String × β))
    (h : (l.map Prod.fst).Nodup) : alistLookup k (alistErase k l) = none := by
  induction l with
  | nil => rfl
  | cons hd t ih =>
    simp only [List.map_cons, List.nodup_cons] at h
    by_cases hk : hd.1 = k
    · rw [alistErase]
      simp only [hk, if_true]
      exact alistLookup_eq_none_of_not_mem k t (hk ▸ h.1)
    · rw [alistErase]
      simp only [hk, if_false]
      simp [alistLookup, hk, ih h.2]

/-! ### Eviction and `set` lemmas -/

theorem evict_oldest_fields (c : ResponseCache α) :
    c.evict_oldest.max_size = c.max_size ∧
    c.evict_oldest.default_ttl = c.default_ttl ∧
    c.evict_oldest.hits = c.hits ∧
    c.evict_oldest.misses = c.misses := by
  unfold ResponseCache.evict_oldest
  split
  · exact ⟨rfl, rfl, rfl, rfl⟩
  · exact ⟨rfl, rfl, rfl, rfl⟩

/-- A non-empty cache strictly shrinks under `_evict_oldest`. -/
theorem length_evict_oldest_lt (c : ResponseCache α) (h : c.cache ≠ []) :
    c.evict_oldest.cache.length < c.cache.length := by
  have hne : c.cache.isEmpty = false := by simpa using h
  simp only [ResponseCache.evict_oldest, hne, Bool.false_eq_true, if_false]
  generalize hsk :
    (List.insertionSort (fun a b => a.2.created_at ≤ b.2.created_at)
      c.cache).map Prod.fst = ks
  have hperm : ks.Perm (c.cache.map Prod.fst) := by
    rw [← hsk]
    exact (List.perm_insertionSort _ _).map Prod.fst
  have hlen : ks.length = c.cache.length := by
    rw [hperm.length_eq, List.length_map]
  obtain ⟨k, t, rfl⟩ : ∃ k t, ks = k :: t := by
    cases ks with
    | nil =>
      rw [List.length_nil] at hlen
      exact absurd (List.length_eq_zero.mp hlen.symm) h
    | cons k t => exact ⟨k, t, rfl⟩
  have hk : k ∈ c.cache.map Prod.fst := hperm.mem_iff.mp (by simp)
  obtain ⟨m, hm⟩ : ∃ m, max 1 ((k :: t).length / 10) = m + 1 := by
    cases hmax : max 1 ((k :: t).length / 10) with
    | zero =>
      have := Nat.le_max_left 1 ((k :: t).length / 10)
      omega
    | succ m => exact ⟨m, rfl⟩
  rw [hm, List.take_succ_cons]
  calc (deleteKeys (k :: t.take m) c.cache).length
      = (deleteKeys (t.take m) (alistErase k c.cache)).length := rfl
    _ ≤ (alistErase k c.cache).length := length_deleteKeys_le _ _
    _ < c.cache.length := length_alistErase_lt k c.cache hk

theorem wf_evict_oldest (c : ResponseCache α) (h : c.WF) : c.evict_oldest.WF := by
  unfold ResponseCache.WF ResponseCache.evict_oldest at *
  split
  · exact h
  · exact nodup_deleteKeys _ _ h

theorem set_fields (c : ResponseCache α) (key : String) (value : α)
    (ttl : Option Int) (now : ℚ) :
    (c.set key value ttl now).max_size = c.max_size ∧
    (c.set key value ttl now).default_ttl = c.default_ttl ∧
    (c.set key value ttl now).hits = c.hits ∧
    (c.set key value ttl now).misses = c.misses := by
  by_cases hc : c.max_size ≤ c.cache.length <;>
    simp [ResponseCache.set, hc, (evict_oldest_fields c).1,
      (evict_oldest_fields c).2.1, (evict_oldest_fields c).2.2.1,
      (evict_oldest_fields c).2.2.2]

/-- The cache list after `set`: insert into the (possibly evicted) list,
with the TTL defaulted against the store's `default_ttl`. -/
theorem set_cache (c : ResponseCache α) (key : String) (value : α)
    (ttl : Option Int) (now : ℚ) :
    (c.set key value ttl now).cache =
      alistInsert key ⟨value, now, ttlOrDefault ttl c.default_ttl, 0⟩
        (if c.max_size ≤ c.cache.length then c.evict_oldest.cache
         else c.cache) := by
  by_cases hc : c.max_size ≤ c.cache.length
  · simp only [ResponseCache.set, hc, if_true, (evict_oldest_fields c).2.1]
  · simp only [ResponseCache.set, hc, if_false]

theorem wf_set (c : ResponseCache α) (hwf : c.WF) (key : String) (value : α)
    (ttl : Option Int) (now : ℚ) : (c.set key value ttl now).WF := by
  unfold ResponseCache.WF
  rw [set_cache]
  apply nodup_alistInsert
  split
  · exact wf_evict_oldest c hwf
  · exact hwf

/-! ## Claims C7, C8, C10 -/

/-- C7 (amended): for every `ResponseCache` with `max_size ≥ 1` whose size
is at most `max_size`, any `set` keeps the size at most `max_size`; when the
size equals `max_size`, the batch eviction (sort by `created_at` ascending,
drop the oldest `max 1 (size / 10)`) strictly reduces the size below
`max_size` before the insert.  (The original claim, quantified over every
`ResponseCache`, fails for `max_size = 0`: `_evict_oldest` returns
immediately on an empty dict and the insert then makes the size 1.) -/
theorem C7_amended_size_bound (c : ResponseCache α) (key : String) (value : α)
    (ttl : Option Int) (now : ℚ) (hm : 1 ≤ c.max_size)
    (hs : c.cache.length ≤ c.max_size) :
    (c.set key value ttl now).cache.length ≤ c.max_size ∧
    (c.cache.length = c.max_size →
      c.evict_oldest.cache.length < c.max_size) := by
  constructor
  · rw [set_cache]
    by_cases hc : c.max_size ≤ c.cache.length
    · rw [if_pos hc]
      have hne : c.cache ≠ [] := by
        intro h0
        rw [h0] at hc
        simp at hc
        omega
      have h1 := length_evict_oldest_lt c hne
      have h2 := length_alistInsert_le key
        (⟨value, now, ttlOrDefault ttl c.default_ttl, 0⟩ : CacheEntry α)
        c.evict_oldest.cache
      omega
    · rw [if_neg hc]
      have h2 := length_alistInsert_le key
        (⟨value, now, ttlOrDefault ttl c.default_ttl, 0⟩ : CacheEntry α)
        c.cache
      omega
  · intro he
    have hne : c.cache ≠ [] := by
      intro h0
      rw [h0] at he
      simp at he
      omega
    have h1 := length_evict_oldest_lt c hne
    omega

/-- C7 witness: a full one-slot cache stays within its bound across `set`,
and its eviction empties it below the bound. -/
theorem C7_witness :
    1 ≤ (⟨[("a", ⟨1, 0, 5, 0⟩)], 1, 5, 0, 0⟩ : ResponseCache Nat).max_size ∧
    (⟨[("a", ⟨1, 0, 5, 0⟩)], 1, 5, 0, 0⟩ : ResponseCache Nat).cache.length
      ≤ (⟨[("a", ⟨1, 0, 5, 0⟩)], 1, 5, 0, 0⟩ : ResponseCache Nat).max_size ∧
    ((⟨[("a", ⟨1, 0, 5, 0⟩)], 1, 5, 0, 0⟩ : ResponseCache Nat).set "b" 2 none
      1).cache.length
      ≤ (⟨[("a", ⟨1, 0, 5, 0⟩)], 1, 5, 0, 0⟩ : ResponseCache Nat).max_size ∧
    ((⟨[("a", ⟨1, 0, 5, 0⟩)], 1, 5, 0, 0⟩ : ResponseCache Nat).cache.length
        = (⟨[("a", ⟨1, 0, 5, 0⟩)], 1, 5, 0, 0⟩ : ResponseCache Nat).max_size →
      (⟨[("a", ⟨1, 0, 5, 0⟩)], 1, 5, 0, 0⟩
        : ResponseCache Nat).evict_oldest.cache.length
        < (⟨[("a", ⟨1, 0, 5, 0⟩)], 1, 5, 0, 0⟩ : ResponseCache Nat).max_size) :=
  ⟨by decide, by decide,
   (C7_amended_size_bound _ "b" 2 none 1 (by decide) (by decide)).1,
   (C7_amended_size_bound _ "b" 2 none 1 (by decide) (by decide)).2⟩

/-- C7 counterexample to the claim as stated: with `max_size = 0` the empty
cache satisfies `size ≤ max_size`, yet after a `set` the size exceeds
`max_size`. -/
theorem C7_counterexample :
    (⟨[], 0, 5, 0, 0⟩ : ResponseCache Nat).cache.length
      ≤ (⟨[], 0, 5, 0, 0⟩ : ResponseCache Nat).max_size ∧
    ¬ (((⟨[], 0, 5, 0, 0⟩ : ResponseCache Nat).set "k" 7 none 0).cache.length
      ≤ (⟨[], 0, 5, 0, 0⟩ : ResponseCache Nat).max_size) :=
  ⟨by decide, by decide⟩

/-- C10: a falsy `ttl` argument (`None`, or explicitly `0`) stores the
entry with the store's `default_ttl` — a caller cannot request an
immediately-expiring entry — while any non-zero `ttl` (negatives included)
is stored as given. -/
theorem C10_falsy_ttl_default (c : ResponseCache α) (key : String) (value : α)
    (now : ℚ) :
    alistLookup key ((c.set key value (some 0) now).cache)
      = some ⟨value, now, c.default_ttl, 0⟩ ∧
    alistLookup key ((c.set key value none now).cache)
      = some ⟨value, now, c.default_ttl, 0⟩ ∧
    (∀ t : Int, t ≠ 0 →
      alistLookup key ((c.set key value (some t) now).cache)
        = some ⟨value, now, t, 0⟩) := by
  refine ⟨?_, ?_, fun t ht => ?_⟩
  · rw [set_cache]
    simp [ttlOrDefault, alistLookup_insert]
  · rw [set_cache]
    simp [ttlOrDefault, alistLookup_insert]
  · rw [set_cache]
    simp [ttlOrDefault, alistLookup_insert, ht]

/-- C10 witness: `ttl = 0` is replaced by the default TTL 3600; the truthy
`ttl = -2` is stored as given. -/
theorem C10_witness :
    alistLookup "k"
        (((⟨[], 10, 3600, 0, 0⟩ : ResponseCache Nat).set "k" 5 (some 0)
          2).cache) = some ⟨5, 2, 3600, 0⟩ ∧
    alistLookup "k"
        (((⟨[], 10, 3600, 0, 0⟩ : ResponseCache Nat).set "k" 5 (some (-2))
          2).cache) = some ⟨5, 2, -2, 0⟩ :=
  ⟨(C10_falsy_ttl_default (⟨[], 10, 3600, 0, 0⟩ : ResponseCache Nat) "k" 5 2).1,
   (C10_falsy_ttl_default (⟨[], 10, 3600, 0, 0⟩ : ResponseCache Nat) "k" 5
      2).2.2 (-2) (by decide)⟩

/-- C8: for a well-formed cache, `set k v` followed by `get k` within the
stored TTL returns exactly `v`, counts a store hit and sets the entry's hit
count to 1; `get k` once the TTL has elapsed returns nothing, counts a miss
and deletes the entry; `get` of an absent key counts a miss. -/
theorem C8_get_set_ttl (c : ResponseCache α) (k : String) (v : α)
    (ttl : Option Int) (now₀ now₁ : ℚ) (hwf : c.WF) :
    (now₁ - now₀ ≤ ((ttlOrDefault ttl c.default_ttl : Int) : ℚ) →
      ((c.set k v ttl now₀).get now₁ k).1 = some v ∧
      ((c.set k v ttl now₀).get now₁ k).2.hits = c.hits + 1 ∧
      alistLookup k ((c.set k v ttl now₀).get now₁ k).2.cache
        = some ⟨v, now₀, ttlOrDefault ttl c.default_ttl, 1⟩) ∧
    (((ttlOrDefault ttl c.default_ttl : Int) : ℚ) < now₁ - now₀ →
      ((c.set k v ttl now₀).get now₁ k).1 = none ∧
      ((c.set k v ttl now₀).get now₁ k).2.misses = c.misses + 1 ∧
      alistLookup k ((c.set k v ttl now₀).get now₁ k).2.cache = none) ∧
    (∀ k₂, alistLookup k₂ c.cache = none →
      (c.get now₁ k₂).1 = none ∧
      (c.get now₁ k₂).2.misses = c.misses + 1) := by
  have hlk : alistLookup k (c.set k v ttl now₀).cache
      = some ⟨v, now₀, ttlOrDefault ttl c.default_ttl, 0⟩ := by
    rw [set_cache]
    exact alistLookup_insert _ _ _
  refine ⟨fun h => ?_, fun h => ?_, fun k₂ h => ?_⟩
  · have hexp : (⟨v, now₀, ttlOrDefault ttl c.default_ttl, 0⟩
        : CacheEntry α).is_expired now₁ = false := by
      simp only [CacheEntry.is_expired, decide_eq_false_iff_not, not_lt]
      exact h
    simp only [ResponseCache.get, hlk, hexp, Bool.false_eq_true, if_false]
    refine ⟨trivial, ?_, ?_⟩
    · rw [(set_fields c k v ttl now₀).2.2.1]
    · exact alistLookup_insert _ _ _
  · have hexp : (⟨v, now₀, ttlOrDefault ttl c.default_ttl, 0⟩
        : CacheEntry α).is_expired now₁ = true := by
      simp only [CacheEntry.is_expired, decide_eq_true_eq]
      exact h
    simp only [ResponseCache.get, hlk, hexp, if_true]
    refine ⟨trivial, ?_, ?_⟩
    · rw [(set_fields c k v ttl now₀).2.2.2]
    · exact alistLookup_alistErase_self k _ (wf_set c hwf k v ttl now₀)
  · simp only [ResponseCache.get, h]
    exact ⟨trivial, trivial⟩

/-- C8 witness: on a fresh store (default TTL 5), `set` at time 0 then
`get` at time 3 hits and returns the value; `get` at time 6 misses and
removes the entry; `get` of an absent key misses. -/
theorem C8_witness :
    ((((⟨[], 10, 5, 0, 0⟩ : ResponseCache Nat).set "a" 3 none 0).get 3
        "a").1 = some 3 ∧
      (((⟨[], 10, 5, 0, 0⟩ : ResponseCache Nat).set "a" 3 none 0).get 3
        "a").2.hits = 1 ∧
      alistLookup "a" ((((⟨[], 10, 5, 0, 0⟩ : ResponseCache Nat).set "a" 3
        none 0).get 3 "a").2.cache) = some ⟨3, 0, 5, 1⟩) ∧
    ((((⟨[], 10, 5, 0, 0⟩ : ResponseCache Nat).set "a" 3 none 0).get 6
        "a").1 = none ∧
      (((⟨[], 10, 5, 0, 0⟩ : ResponseCache Nat).set "a" 3 none 0).get 6
        "a").2.misses = 1 ∧
      alistLookup "a" ((((⟨[], 10, 5, 0, 0⟩ : ResponseCache Nat).set "a" 3
        none 0).get 6 "a").2.cache) = none) ∧
    (((⟨[], 10, 5, 0, 0⟩ : ResponseCache Nat).get 3 "b").1 = none ∧
      ((⟨[], 10, 5, 0, 0⟩ : ResponseCache Nat).get 3 "b").2.misses = 1) :=
  ⟨(C8_get_set_ttl (⟨[], 10, 5, 0, 0⟩ : ResponseCache Nat) "a" 3 none 0 3
      (by simp [ResponseCache.WF])).1 (by norm_num [ttlOrDefault]),
   (C8_get_set_ttl (⟨[], 10, 5, 0, 0⟩ : ResponseCache Nat) "a" 3 none 0 6
      (by simp [ResponseCache.WF])).2.1 (by norm_num [ttlOrDefault]),
   (C8_get_set_ttl (⟨[], 10, 5, 0, 0⟩ : ResponseCache Nat) "a" 3 none 0 3
      (by simp [ResponseCache.WF])).2.2 "b" rfl⟩

/-! ## Claim C9: `ResponseCache._generate_key` -/

/-- The order Python's `sorted` uses on `kwargs.items()`: `(name, value)`
tuples compared lexicographically — by name, then by value.  Keyword
values are modelled as the strings `str()` renders them to. -/
def pairLex (p q : String × String) : Prop :=
  p.1 < q.1 ∨ (p.1 = q.1 ∧ p.2 ≤ q.2)

instance : DecidableRel pairLex := fun p q => by
  unfold pairLex
  infer_instance

instance : IsTotal (String × String) pairLex := by
  constructor
  intro a b
  rcases lt_trichotomy a.1 b.1 with h | h | h
  · exact Or.inl (Or.inl h)
  · rcases le_total a.2 b.2 with h2 | h2
    · exact Or.inl (Or.inr ⟨h, h2⟩)
    · exact Or.inr (Or.inr ⟨h.symm, h2⟩)
  · exact Or.inr (Or.inl h)

instance : IsTrans (String × String) pairLex := by
  constructor
  rintro a b c (h1 | ⟨h1, h1'⟩) (h2 | ⟨h2, h2'⟩)
  · exact Or.inl (h1.trans h2)
  · exact Or.inl (h2 ▸ h1)
  · exact Or.inl (h1 ▸ h2)
  · exact Or.inr ⟨h1.trans h2, h1'.trans h2'⟩

instance : IsAntisymm (String × String) pairLex := by
  constructor
  rintro a b (h1 | ⟨h1, h1'⟩) (h2 | ⟨h2, h2'⟩)
  · exact absurd h2 (lt_asymm h1)
  · exact absurd h1 (h2 ▸ lt_irrefl a.1)
  · exact absurd h2 (h1 ▸ lt_irrefl a.1)
  · exact Prod.ext h1 (le_antisymm h1' h2')

/-- Python `sorted(kwargs.items())` — a stable sort by `pairLex`, modelled
by insertion sort. -/
def sortPairs (ps : List (String × String)) : List (String × String) :=
  List.insertionSort pairLex ps

/-- A deterministic rendering of `str(args)` for the positional-argument
tuple. -/
def pyStrTuple (xs : List String) : String :=
  "(" ++ String.intercalate ", " xs ++ ")"

/-- A deterministic rendering of `str(list_of_pairs)` for the sorted
keyword-argument pairs. -/
def pyStrPairs (ps : List (String × String)) : String :=
  "[" ++ String.intercalate ", "
    (ps.map fun p => "(" ++ p.1 ++ ", " ++ p.2 ++ ")") ++ "]"

/-- `ResponseCache._generate_key`:
`md5(str(args) + str(sorted(kwargs.items()))).hexdigest()`, with the
external `hashlib.md5(...).hexdigest()` abstracted as an arbitrary function
`digest` of the key string — the determinism claim holds for every such
digest, in particular the real MD5. -/
def generate_key (digest : String → String) (args : List String)
    (kwargs : List (String × String)) : String :=
  digest (pyStrTuple args ++ pyStrPairs (sortPairs kwargs))

/-- C9: the fingerprint is a deterministic function of the ordered
positional arguments and the name-sorted keyword arguments: presenting the
same keyword-argument set in any order yields the identical fingerprint. -/
theorem C9_fingerprint_determinism (digest : String → String)
    (args : List String) (kw₁ kw₂ : List (String × String))
    (hperm : kw₁.Perm kw₂) :
    generate_key digest args kw₁ = generate_key digest args kw₂ := by
  have hs : sortPairs kw₁ = sortPairs kw₂ :=
    List.eq_of_perm_of_sorted
      ((List.perm_insertionSort pairLex kw₁).trans
        (hperm.trans (List.perm_insertionSort pairLex kw₂).symm))
      (List.sorted_insertionSort pairLex kw₁)
      (List.sorted_insertionSort pairLex kw₂)
  unfold generate_key
  rw [hs]

/-- C9 witness: two keyword orders of the same call hash identically. -/
theorem C9_witness :
    ([("b", "2"), ("a", "1")] : List (String × String)).Perm
      [("a", "1"), ("b", "2")] ∧
    generate_key (fun s => s) ["q"] [("b", "2"), ("a", "1")]
      = generate_key (fun s => s) ["q"] [("a", "1"), ("b", "2")] :=
  ⟨List.Perm.swap _ _ _,
   C9_fingerprint_determinism (fun s => s) ["q"] _ _ (List.Perm.swap _ _ _)⟩
